import Mathlib

/-!
Shallow embedding of `torch_geometric/io/metrla.py` (class `MetrLaIo`).

Conventions of the embedding:

* Python/numpy floats are modelled as exact rationals (`ℚ`); the half-precision
  casts (`float16`, `short`) are value-preserving on the exact model.
* The reading table is a list of rows (one per timestep), each row a list of
  per-sensor values.  A timestamp is modelled as seconds since the Unix epoch
  (`ℕ`): the source parses the CSV index strings with
  `astype("datetime64")`, which infers second resolution from the
  `YYYY-MM-DD HH:MM:SS` format, so all later arithmetic happens in seconds.
* numpy's `inf` placeholder entries of the adjacency matrix are modelled as
  `Option ℚ` with `none` for `inf`; `exp(-inf) = 0` exactly in IEEE arithmetic,
  which the kernel step mirrors on the `none` branch.
* `np.exp` and `ndarray.std` are irrational-valued, so they are taken as
  parameters (`fexp`, `stdFn`) of the adjacency construction; theorems that
  need facts about them state those facts as hypotheses.
-/

namespace MetrLa

/-- The constant `1e-5` added inside the Gaussian kernel. -/
def eps : ℚ := 1 / 100000

/-- Configuration part of the `MetrLaIo` class: the four constructor
arguments.  (`x`, `y`, `adjacency_matrix` — the mutable `None` fields — are
modelled separately by `MetrLaIoState`.) -/
structure MetrLaIo where
  n_readings : ℕ
  n_previous_steps : ℕ
  n_future_steps : ℕ
  normalized_k : ℚ
deriving DecidableEq

/-- `np.arange(start=-n_previous_steps + 1, stop=1, step=1)`. -/
def previous_offsets (m : MetrLaIo) : List ℤ :=
  (List.range m.n_previous_steps).map
    (fun i : ℕ => -(m.n_previous_steps : ℤ) + 1 + (i : ℤ))

/-- `np.arange(start=1, stop=n_future_steps + 1, step=1)`. -/
def future_offsets (m : MetrLaIo) : List ℤ :=
  (List.range m.n_future_steps).map (fun i : ℕ => 1 + (i : ℤ))

/-- `min_t = abs(min(previous_offsets))`; Python's `min` errs on an empty
list, modelled by the default `0` (dead for `n_previous_steps ≥ 1`). -/
def min_t (m : MetrLaIo) : ℕ :=
  (((previous_offsets m).min?).getD 0).natAbs

/-- `max_t = abs(n_readings - abs(max(future_offsets)))`. -/
def max_t (m : MetrLaIo) : ℕ :=
  ((m.n_readings : ℤ) - ((((future_offsets m).max?).getD 0).natAbs : ℤ)).natAbs

/-- `dataset_len = max_t - min_t - 1` (Python integer arithmetic, hence `ℤ`). -/
def dataset_len (m : MetrLaIo) : ℤ :=
  (max_t m : ℤ) - (min_t m : ℤ) - 1

/-! ### Calendar features

All of these act on a timestamp given in seconds since the epoch.
`astype("datetime64[D]")` truncates to midnight, so the subtraction yields
the seconds elapsed since midnight; the divisions below are the source's
`/ 3600 % 24`, `/ 720 % 288` on that quantity (`numpy` timedelta division by
an integer truncates). -/

/-- Seconds since midnight: `index.astype("datetime64") - index.astype("datetime64[D]")`. -/
def secondsOfDay (ts : ℕ) : ℕ := ts % 86400

/-- `hour_of_day` per-timestep value: `(diff / 3600).astype(int) % 24`. -/
def hourOfDayVal (ts : ℕ) : ℕ := secondsOfDay ts / 3600 % 24

/-- `interval_of_day` per-timestep value: `(diff / 720).astype(int) % 288`. -/
def intervalOfDayVal (ts : ℕ) : ℕ := secondsOfDay ts / 720 % 288

/-- `day_of_week` per-timestep value: pandas
`DatetimeIndex.dayofweek` with the Monday=0 convention; the epoch day
1970-01-01 was a Thursday, i.e. day 3 in that convention. -/
def dayOfWeekVal (ts : ℕ) : ℕ := (ts / 86400 + 3) % 7

/-! ### Building the per-feature (time, sensor, 1) tensors -/

/-- A rank-3 array laid out (time, sensor, feature=1). -/
abbrev Tensor3 := List (List (List ℚ))

/-- A rank-4 array (window, axis1, axis2, feature=1). -/
abbrev Tensor4 := List (List (List (List ℚ)))

/-- `np.expand_dims(data_df.values, axis=-1)`: the raw readings with a
trailing singleton axis (the `float16` cast preserves the modelled values). -/
def featuresTensor (readings : List (List ℚ)) : Tensor3 :=
  readings.map (fun row => row.map (fun v => [v]))

/-- `np.tile(vals, [1, n_nodes, 1]).transpose((2, 1, 0))`: broadcast a
per-timestep vector to shape (time, sensor, 1). -/
def tile3 (n_nodes : ℕ) (vals : List ℚ) : Tensor3 :=
  vals.map (fun v => List.replicate n_nodes [v])

/-- The recognized feature keys, in the order their `if` blocks populate the
`data` dict in `get_metrla_data`. -/
def recognizedKeys : List String :=
  ["features", "hour_of_day", "day_of_week", "interval_of_day"]

/-- The default assigned by `if not features: features = [...]`. -/
def defaultFeatures : List String :=
  ["features", "interval_of_day", "day_of_week"]

/-- The `data` dict of `get_metrla_data`, as an association list in insertion
order: one entry per recognized key contained in `features`. -/
def buildData (features : List String) (index : List ℕ)
    (readings : List (List ℚ)) (n_nodes : ℕ) : List (String × Tensor3) :=
  (if features.contains "features" then
    [("features", featuresTensor readings)] else []) ++
  (if features.contains "hour_of_day" then
    [("hour_of_day", tile3 n_nodes (index.map (fun ts => (hourOfDayVal ts : ℚ))))] else []) ++
  (if features.contains "day_of_week" then
    [("day_of_week", tile3 n_nodes (index.map (fun ts => (dayOfWeekVal ts : ℚ))))] else []) ++
  (if features.contains "interval_of_day" then
    [("interval_of_day", tile3 n_nodes (index.map (fun ts => (intervalOfDayVal ts : ℚ))))] else [])

/-! ### Windowing -/

/-- `value[t + offsets, ...]`: fancy indexing along the time axis.  For the
`t` produced by the loop every index is in `[0, len value)`, so the `toNat`
clamp and the `[]` default are dead there. -/
def gatherRows (value : Tensor3) (offsets : List ℤ) (t : ℤ) : Tensor3 :=
  offsets.map (fun o => value.getD (t + o).toNat [])

/-- `np.swapaxes(a, 0, 1)` for a rectangular rank-3 array whose second axis
has length `w`. -/
def swapaxes01 (w : ℕ) (a : Tensor3) : Tensor3 :=
  (List.range w).map (fun s => a.map (fun row => row.getD s []))

/-- `range(min_t, max_t)` (empty when `max_t ≤ min_t`, like Python's). -/
def indicesRange (m : MetrLaIo) : List ℕ :=
  List.range' (min_t m) (max_t m - min_t m)

/-- One stacked tensor
`np.stack([np.swapaxes(value[t + offsets, ...], 0, 1) for t in indices_range], axis=0)`. -/
def stackWindows (m : MetrLaIo) (n_nodes : ℕ) (offsets : List ℤ)
    (value : Tensor3) : Tensor4 :=
  (indicesRange m).map
    (fun t : ℕ => swapaxes01 n_nodes (gatherRows value offsets (t : ℤ)))

/-- Modelled from the spec: `get_metrla_data` reads a name `features` that is
never bound in the source (its design notes flag this unbound-local reference
as a latent defect and require an explicit argument instead); it is modelled
here as an explicit argument, to which the source's own line
`if not features: features = ["features", "interval_of_day", "day_of_week"]`
applies when the list is empty.  The CSV read is modelled by passing the
parsed timestamp index and the reading rows directly. -/
def getMetrLaData (m : MetrLaIo) (features : List String) (index : List ℕ)
    (readings : List (List ℚ)) :
    List (String × Tensor4) × List (String × Tensor4) :=
  let feats := if features.isEmpty then defaultFeatures else features
  let n_nodes := (readings.headD []).length
  let data := buildData feats index readings n_nodes
  (data.map (fun kv => (kv.1, stackWindows m n_nodes (previous_offsets m) kv.2)),
   data.map (fun kv => (kv.1, stackWindows m n_nodes (future_offsets m) kv.2)))

/-- The shape of a rank-4 list tensor, read off from its leading entries
(matching the numpy shape for rectangular tensors). -/
def shape4 (t : Tensor4) : ℕ × ℕ × ℕ × ℕ :=
  (t.length, (t.headD []).length, ((t.headD []).headD []).length,
   (((t.headD []).headD []).headD []).length)

end MetrLa

namespace MetrLa

/-! ### Basic facts about the offset vectors and the time bounds -/

theorem previous_offsets_length (m : MetrLaIo) :
    (previous_offsets m).length = m.n_previous_steps := by
  rw [previous_offsets, List.length_map, List.length_range]

theorem future_offsets_length (m : MetrLaIo) :
    (future_offsets m).length = m.n_future_steps := by
  rw [future_offsets, List.length_map, List.length_range]

theorem previous_offsets_min (m : MetrLaIo) (hp : 1 ≤ m.n_previous_steps) :
    (previous_offsets m).min? = some (-(m.n_previous_steps : ℤ) + 1) := by
  refine (@List.min?_eq_some_iff ℤ _ _ _ ⟨fun h hq => le_antisymm h hq⟩ le_refl
    min_choice (fun _ _ _ => le_min_iff) (previous_offsets m)).mpr ⟨?_, ?_⟩
  · simp only [previous_offsets, List.mem_map, List.mem_range]
    exact ⟨0, hp, by simp⟩
  · intro b hb
    simp only [previous_offsets, List.mem_map, List.mem_range] at hb
    obtain ⟨i, _, rfl⟩ := hb
    omega

theorem future_offsets_max (m : MetrLaIo) (hf : 1 ≤ m.n_future_steps) :
    (future_offsets m).max? = some (m.n_future_steps : ℤ) := by
  refine (@List.max?_eq_some_iff ℤ _ _ _ ⟨fun h hq => le_antisymm h hq⟩ le_refl
    max_choice (fun _ _ _ => max_le_iff) (future_offsets m)).mpr ⟨?_, ?_⟩
  · simp only [future_offsets, List.mem_map, List.mem_range]
    exact ⟨m.n_future_steps - 1, by omega, by omega⟩
  · intro b hb
    simp only [future_offsets, List.mem_map, List.mem_range] at hb
    obtain ⟨i, hi, rfl⟩ := hb
    omega

theorem min_t_eq (m : MetrLaIo) (hp : 1 ≤ m.n_previous_steps) :
    min_t m = m.n_previous_steps - 1 := by
  rw [min_t, previous_offsets_min m hp]
  simp only [Option.getD_some]
  omega

theorem max_t_eq (m : MetrLaIo) (hf : 1 ≤ m.n_future_steps)
    (hn : m.n_future_steps ≤ m.n_readings) :
    max_t m = m.n_readings - m.n_future_steps := by
  rw [max_t, future_offsets_max m hf]
  simp only [Option.getD_some, Int.natAbs_ofNat]
  omega

theorem indicesRange_length (m : MetrLaIo) :
    (indicesRange m).length = max_t m - min_t m := by
  simp [indicesRange]

theorem stackWindows_length (m : MetrLaIo) (n_nodes : ℕ) (offsets : List ℤ)
    (value : Tensor3) :
    (stackWindows m n_nodes offsets value).length = max_t m - min_t m := by
  rw [stackWindows, List.length_map, indicesRange_length]

/-- C2: for `n_previous_steps, n_future_steps ≥ 1` and
`n_readings ≥ n_previous_steps + n_future_steps`, `min_t` equals
`n_previous_steps - 1`, `max_t` equals `n_readings - n_future_steps`, every
tensor returned by the load operation has `max_t - min_t` windows on its
first axis, and `dataset_len` returns `max_t - min_t - 1`, one less than the
number of windows produced. -/
theorem metrla_C2_window_count (n p f : ℕ) (k : ℚ)
    (hp : 1 ≤ p) (hf : 1 ≤ f) (hn : p + f ≤ n)
    (feats : List String) (index : List ℕ) (readings : List (List ℚ)) :
    min_t ⟨n, p, f, k⟩ = p - 1 ∧
    max_t ⟨n, p, f, k⟩ = n - f ∧
    (∀ kv ∈ (getMetrLaData ⟨n, p, f, k⟩ feats index readings).1,
      kv.2.length = max_t ⟨n, p, f, k⟩ - min_t ⟨n, p, f, k⟩) ∧
    (∀ kv ∈ (getMetrLaData ⟨n, p, f, k⟩ feats index readings).2,
      kv.2.length = max_t ⟨n, p, f, k⟩ - min_t ⟨n, p, f, k⟩) ∧
    dataset_len ⟨n, p, f, k⟩ =
      ((max_t ⟨n, p, f, k⟩ - min_t ⟨n, p, f, k⟩ : ℕ) : ℤ) - 1 := by
  have hmin : min_t ⟨n, p, f, k⟩ = p - 1 := min_t_eq _ hp
  have hmax : max_t ⟨n, p, f, k⟩ = n - f := max_t_eq _ hf (show f ≤ n by omega)
  refine ⟨hmin, hmax, ?_, ?_, ?_⟩
  · intro kv hkv
    rw [getMetrLaData] at hkv
    simp only [List.mem_map] at hkv
    obtain ⟨kv', _, rfl⟩ := hkv
    exact stackWindows_length ..
  · intro kv hkv
    rw [getMetrLaData] at hkv
    simp only [List.mem_map] at hkv
    obtain ⟨kv', _, rfl⟩ := hkv
    exact stackWindows_length ..
  · rw [dataset_len, hmin, hmax]
    omega

/-- Witness for C2 at `n_readings = 4`, `n_previous_steps = 2`,
`n_future_steps = 1` on a 4×2 reading table. -/
theorem metrla_C2_window_count_witness :
    min_t ⟨4, 2, 1, (1 : ℚ)/10⟩ = 2 - 1 ∧
    max_t ⟨4, 2, 1, (1 : ℚ)/10⟩ = 4 - 1 ∧
    (∀ kv ∈ (getMetrLaData ⟨4, 2, 1, (1 : ℚ)/10⟩ ["features"] [0, 300, 600, 900]
        [[1, 2], [3, 4], [5, 6], [7, 8]]).1,
      kv.2.length = max_t ⟨4, 2, 1, (1 : ℚ)/10⟩ - min_t ⟨4, 2, 1, (1 : ℚ)/10⟩) ∧
    (∀ kv ∈ (getMetrLaData ⟨4, 2, 1, (1 : ℚ)/10⟩ ["features"] [0, 300, 600, 900]
        [[1, 2], [3, 4], [5, 6], [7, 8]]).2,
      kv.2.length = max_t ⟨4, 2, 1, (1 : ℚ)/10⟩ - min_t ⟨4, 2, 1, (1 : ℚ)/10⟩) ∧
    dataset_len ⟨4, 2, 1, (1 : ℚ)/10⟩ =
      ((max_t ⟨4, 2, 1, (1 : ℚ)/10⟩ - min_t ⟨4, 2, 1, (1 : ℚ)/10⟩ : ℕ) : ℤ) - 1 :=
  metrla_C2_window_count 4 2 1 ((1 : ℚ)/10) (by decide) (by decide) (by decide)
    ["features"] [0, 300, 600, 900] [[1, 2], [3, 4], [5, 6], [7, 8]]

/-- C1 (code bug): for a 4×3 reading table with `n_previous_steps = 2`,
`n_future_steps = 1`, the load operation returns the `features` X-tensor with
shape `(n_windows, n_nodes, n_previous_steps, 1) = (2, 3, 2, 1)` and the
Y-tensor with shape `(2, 3, 1, 1)`: the `swapaxes(…, 0, 1)` puts the sensor
axis second and the window/time axis third, contradicting the documented
shapes `(n_windows, n_previous_steps, n_nodes, 1)` and
`(n_windows, n_future_steps, n_nodes, 1)`. -/
theorem metrla_C1_actual_shapes :
    shape4 ((getMetrLaData ⟨4, 2, 1, (1 : ℚ)/10⟩ ["features"] [0, 300, 600, 900]
        [[1, 2, 3], [4, 5, 6], [7, 8, 9], [10, 11, 12]]).1.headD ("", [])).2
      = (2, 3, 2, 1) ∧
    shape4 ((getMetrLaData ⟨4, 2, 1, (1 : ℚ)/10⟩ ["features"] [0, 300, 600, 900]
        [[1, 2, 3], [4, 5, 6], [7, 8, 9], [10, 11, 12]]).2.headD ("", [])).2
      = (2, 3, 1, 1) ∧
    ((2, 3, 2, 1) : ℕ × ℕ × ℕ × ℕ) ≠ (2, 2, 3, 1) ∧
    ((2, 3, 1, 1) : ℕ × ℕ × ℕ × ℕ) ≠ (2, 1, 3, 1) := by
  refine ⟨?_, ?_, by decide, by decide⟩ <;> rfl

/-! ### Entry-level description of the windowing pipeline -/

theorem getD_map_eq {α β : Type _} (l : List α) (f : α → β) (i : ℕ) (d : α)
    (e : β) (h : f d = e) : (l.map f).getD i e = f (l.getD i d) := by
  rw [List.getD_eq_getElem?_getD, List.getD_eq_getElem?_getD, List.getElem?_map]
  cases l[i]? <;> simp [h]

theorem getD_map_lt {α β : Type _} (l : List α) (f : α → β) (i : ℕ) (d : α)
    (e : β) (h : i < l.length) : (l.map f).getD i e = f (l.getD i d) := by
  rw [List.getD_eq_getElem?_getD, List.getD_eq_getElem?_getD, List.getElem?_map,
    List.getElem?_eq_getElem h]
  rfl

theorem indicesRange_getD (m : MetrLaIo) (w : ℕ) (hw : w < max_t m - min_t m) :
    (indicesRange m).getD w 0 = min_t m + w := by
  rw [indicesRange, List.getD_eq_getElem?_getD,
    List.getElem?_eq_getElem (by simpa using hw)]
  simp [List.getElem_range']

theorem swapaxes01_entry (w : ℕ) (a : Tensor3) (s : ℕ) (hs : s < w) (j : ℕ) :
    ((swapaxes01 w a).getD s []).getD j [] = (a.getD j []).getD s [] := by
  rw [swapaxes01, getD_map_lt _ _ _ 0 _ (by simpa using hs)]
  have hrs : (List.range w).getD s 0 = s := by
    rw [List.getD_eq_getElem?_getD, List.getElem?_eq_getElem (by simpa using hs)]
    simp
  rw [hrs, getD_map_eq _ _ _ [] _ (by simp)]

theorem gatherRows_getD (value : Tensor3) (offsets : List ℤ) (t : ℤ) (j : ℕ)
    (hj : j < offsets.length) :
    (gatherRows value offsets t).getD j [] =
      value.getD (t + offsets.getD j 0).toNat [] := by
  rw [gatherRows, getD_map_lt _ _ _ 0 _ hj]

theorem featuresTensor_getD (readings : List (List ℚ)) (i : ℕ) :
    (featuresTensor readings).getD i [] =
      (readings.getD i []).map (fun v => [v]) := by
  rw [featuresTensor, getD_map_eq _ _ _ [] _ (by simp)]

theorem tile3_getD (n_nodes : ℕ) (vals : List ℚ) (t : ℕ) (ht : t < vals.length) :
    (tile3 n_nodes vals).getD t [] = List.replicate n_nodes [vals.getD t 0] := by
  rw [tile3, getD_map_lt _ _ _ 0 _ ht]

/-- The (window, sensor, offset) entry of a stacked tensor comes from the
feature tensor's row at time `min_t + w + offsets[j]`. -/
theorem stackWindows_entry (m : MetrLaIo) (n_nodes : ℕ) (offsets : List ℤ)
    (value : Tensor3) (w s j : ℕ) (hw : w < max_t m - min_t m)
    (hs : s < n_nodes) (hj : j < offsets.length) :
    (((stackWindows m n_nodes offsets value).getD w []).getD s []).getD j [] =
      (value.getD (((min_t m + w : ℕ) : ℤ) + offsets.getD j 0).toNat []).getD s [] := by
  rw [stackWindows, getD_map_lt _ _ _ 0 _ (by rw [indicesRange_length]; exact hw),
    indicesRange_getD m w hw, swapaxes01_entry _ _ _ hs, gatherRows_getD _ _ _ _ hj]

theorem previous_offsets_getD (m : MetrLaIo) (j : ℕ)
    (hj : j < m.n_previous_steps) :
    (previous_offsets m).getD j 0 = (j : ℤ) - ((m.n_previous_steps : ℤ) - 1) := by
  rw [previous_offsets, getD_map_lt _ _ _ 0 _ (by simpa using hj)]
  have hrs : (List.range m.n_previous_steps).getD j 0 = j := by
    rw [List.getD_eq_getElem?_getD, List.getElem?_eq_getElem (by simpa using hj)]
    simp
  rw [hrs]
  ring

theorem future_offsets_getD (m : MetrLaIo) (j : ℕ) (hj : j < m.n_future_steps) :
    (future_offsets m).getD j 0 = (j : ℤ) + 1 := by
  rw [future_offsets, getD_map_lt _ _ _ 0 _ (by simpa using hj)]
  have hrs : (List.range m.n_future_steps).getD j 0 = j := by
    rw [List.getD_eq_getElem?_getD, List.getElem?_eq_getElem (by simpa using hj)]
    simp
  rw [hrs]
  ring

/-- With `"features"` among the requested keys, the `features` entry of both
returned maps is the stacked windowing of the raw-readings tensor. -/
theorem lookup_features (m : MetrLaIo) (feats : List String) (index : List ℕ)
    (readings : List (List ℚ)) (hmem : "features" ∈ feats) :
    (getMetrLaData m feats index readings).1.lookup "features" =
      some (stackWindows m (readings.headD []).length (previous_offsets m)
        (featuresTensor readings)) ∧
    (getMetrLaData m feats index readings).2.lookup "features" =
      some (stackWindows m (readings.headD []).length (future_offsets m)
        (featuresTensor readings)) := by
  have hne : feats ≠ [] := List.ne_nil_of_mem hmem
  have hie : feats.isEmpty = false := by
    cases feats with
    | nil => exact absurd rfl hne
    | cons a l => rfl
  have hc : feats.contains "features" = true := by
    exact List.elem_eq_true_of_mem hmem
  rw [getMetrLaData]
  simp only [hie, Bool.false_eq_true, if_false, buildData, hc, if_true,
    List.cons_append, List.map_cons, List.lookup]
  simp

/-- C3: the offset vectors fixed at construction are
`previous_offsets = [-(n_previous_steps-1), …, 0]` and
`future_offsets = [1, …, n_future_steps]`, and window `t`'s predictor entries
come exactly from the reading-table rows at indices `t + previous_offsets`
(in offset order, none omitted), its target entries exactly from the rows at
`t + future_offsets`. -/
theorem metrla_C3_window_provenance (n p f : ℕ) (k : ℚ) (n_nodes : ℕ)
    (hp : 1 ≤ p) (hf : 1 ≤ f) (hn : p + f ≤ n)
    (index : List ℕ) (readings : List (List ℚ))
    (hlen : readings.length = n)
    (hrect : ∀ row ∈ readings, row.length = n_nodes)
    (feats : List String) (hmem : "features" ∈ feats) :
    ((previous_offsets ⟨n, p, f, k⟩).length = p ∧
      ∀ j, j < p →
        (previous_offsets ⟨n, p, f, k⟩).getD j 0 = (j : ℤ) - ((p : ℤ) - 1)) ∧
    ((future_offsets ⟨n, p, f, k⟩).length = f ∧
      ∀ j, j < f → (future_offsets ⟨n, p, f, k⟩).getD j 0 = (j : ℤ) + 1) ∧
    (∀ X, (getMetrLaData ⟨n, p, f, k⟩ feats index readings).1.lookup "features"
        = some X →
      ∀ w s j, w < max_t ⟨n, p, f, k⟩ - min_t ⟨n, p, f, k⟩ → s < n_nodes →
        j < p →
        ((X.getD w []).getD s []).getD j [] =
          [(readings.getD ((((min_t ⟨n, p, f, k⟩ + w : ℕ) : ℤ) +
              (previous_offsets ⟨n, p, f, k⟩).getD j 0).toNat) []).getD s 0]) ∧
    (∀ Y, (getMetrLaData ⟨n, p, f, k⟩ feats index readings).2.lookup "features"
        = some Y →
      ∀ w s j, w < max_t ⟨n, p, f, k⟩ - min_t ⟨n, p, f, k⟩ → s < n_nodes →
        j < f →
        ((Y.getD w []).getD s []).getD j [] =
          [(readings.getD ((((min_t ⟨n, p, f, k⟩ + w : ℕ) : ℤ) +
              (future_offsets ⟨n, p, f, k⟩).getD j 0).toNat) []).getD s 0]) := by
  have hmin : min_t ⟨n, p, f, k⟩ = p - 1 := min_t_eq _ hp
  have hmax : max_t ⟨n, p, f, k⟩ = n - f := max_t_eq _ hf (show f ≤ n by omega)
  have hhead : (readings.headD []).length = n_nodes := by
    cases readings with
    | nil => simp at hlen; omega
    | cons r rs => exact hrect r (List.mem_cons_self r rs)
  refine ⟨⟨previous_offsets_length _, fun j hj => previous_offsets_getD _ j hj⟩,
    ⟨future_offsets_length _, fun j hj => future_offsets_getD _ j hj⟩, ?_, ?_⟩
  · intro X hX w s j hw hs hj
    have hw2 := hw
    rw [hmax, hmin] at hw2
    rw [(lookup_features ⟨n, p, f, k⟩ feats index readings hmem).1] at hX
    obtain rfl : X = _ := (Option.some_injective _ hX.symm)
    rw [stackWindows_entry _ _ _ _ w s j hw (hhead ▸ hs)
      (by rw [previous_offsets_length]; exact hj)]
    have hoff : (previous_offsets ⟨n, p, f, k⟩).getD j 0 =
        (j : ℤ) - ((p : ℤ) - 1) := previous_offsets_getD ⟨n, p, f, k⟩ j hj
    have ht0 : ((((min_t ⟨n, p, f, k⟩ + w : ℕ) : ℤ) +
        (previous_offsets ⟨n, p, f, k⟩).getD j 0).toNat) = w + j := by
      rw [hoff, hmin]; omega
    rw [ht0, featuresTensor_getD]
    have hidx : w + j < readings.length := by omega
    have hrow : (readings.getD (w + j) []).length = n_nodes := by
      rw [List.getD_eq_getElem readings [] hidx]
      exact hrect _ (List.getElem_mem hidx)
    rw [getD_map_lt _ _ _ 0 _ (by rw [hrow]; exact hs)]
  · intro Y hY w s j hw hs hj
    have hw2 := hw
    rw [hmax, hmin] at hw2
    rw [(lookup_features ⟨n, p, f, k⟩ feats index readings hmem).2] at hY
    obtain rfl : Y = _ := (Option.some_injective _ hY.symm)
    rw [stackWindows_entry _ _ _ _ w s j hw (hhead ▸ hs)
      (by rw [future_offsets_length]; exact hj)]
    have hoff := future_offsets_getD ⟨n, p, f, k⟩ j hj
    have ht0 : ((((min_t ⟨n, p, f, k⟩ + w : ℕ) : ℤ) +
        (future_offsets ⟨n, p, f, k⟩).getD j 0).toNat) = p + w + j := by
      rw [hoff, hmin]; omega
    rw [ht0, featuresTensor_getD]
    have hidx : p + w + j < readings.length := by omega
    have hrow : (readings.getD (p + w + j) []).length = n_nodes := by
      rw [List.getD_eq_getElem readings [] hidx]
      exact hrect _ (List.getElem_mem hidx)
    rw [getD_map_lt _ _ _ 0 _ (by rw [hrow]; exact hs)]

/-- Witness for C3 on the spec's round-trip table `reading[t][s] = t*1000+s`
(4 timesteps, 2 sensors, `n_previous_steps = 2`, `n_future_steps = 1`). -/
theorem metrla_C3_window_provenance_witness :
    ((previous_offsets ⟨4, 2, 1, (1 : ℚ)/10⟩).length = 2 ∧
      ∀ j, j < 2 →
        (previous_offsets ⟨4, 2, 1, (1 : ℚ)/10⟩).getD j 0 =
          (j : ℤ) - ((2 : ℤ) - 1)) ∧
    ((future_offsets ⟨4, 2, 1, (1 : ℚ)/10⟩).length = 1 ∧
      ∀ j, j < 1 →
        (future_offsets ⟨4, 2, 1, (1 : ℚ)/10⟩).getD j 0 = (j : ℤ) + 1) ∧
    (∀ X, (getMetrLaData ⟨4, 2, 1, (1 : ℚ)/10⟩ ["features"] [0, 300, 600, 900]
        [[0, 1], [1000, 1001], [2000, 2001], [3000, 3001]]).1.lookup "features"
        = some X →
      ∀ w s j, w < max_t ⟨4, 2, 1, (1 : ℚ)/10⟩ - min_t ⟨4, 2, 1, (1 : ℚ)/10⟩ →
        s < 2 → j < 2 →
        ((X.getD w []).getD s []).getD j [] =
          [(([[0, 1], [1000, 1001], [2000, 2001], [3000, 3001]] :
              List (List ℚ)).getD
              ((((min_t ⟨4, 2, 1, (1 : ℚ)/10⟩ + w : ℕ) : ℤ) +
              (previous_offsets ⟨4, 2, 1, (1 : ℚ)/10⟩).getD j 0).toNat)
              []).getD s 0]) ∧
    (∀ Y, (getMetrLaData ⟨4, 2, 1, (1 : ℚ)/10⟩ ["features"] [0, 300, 600, 900]
        [[0, 1], [1000, 1001], [2000, 2001], [3000, 3001]]).2.lookup "features"
        = some Y →
      ∀ w s j, w < max_t ⟨4, 2, 1, (1 : ℚ)/10⟩ - min_t ⟨4, 2, 1, (1 : ℚ)/10⟩ →
        s < 2 → j < 1 →
        ((Y.getD w []).getD s []).getD j [] =
          [(([[0, 1], [1000, 1001], [2000, 2001], [3000, 3001]] :
              List (List ℚ)).getD
              ((((min_t ⟨4, 2, 1, (1 : ℚ)/10⟩ + w : ℕ) : ℤ) +
              (future_offsets ⟨4, 2, 1, (1 : ℚ)/10⟩).getD j 0).toNat)
              []).getD s 0]) :=
  metrla_C3_window_provenance 4 2 1 ((1 : ℚ)/10) 2 (by decide) (by decide)
    (by decide) [0, 300, 600, 900]
    [[0, 1], [1000, 1001], [2000, 2001], [3000, 3001]] rfl (by decide)
    ["features"] (by decide)

/-- C4 (code bug): at a fixed 5-minute cadence starting at midnight, the
computed `interval_of_day` value is 0 at row 1 (00:05:00) and 119 at row 287
(23:55:00): the source divides the seconds since midnight by 720 rather than
300, so the value is not the time of day in 5-minute units (which would be
1 at row 1 and 287 at row 287; the documented wrap to 0 at row 288 holds
only incidentally). -/
theorem metrla_C4_interval_of_day_bug :
    intervalOfDayVal (1 * 300) = 0 ∧
    intervalOfDayVal (287 * 300) = 119 ∧
    intervalOfDayVal (288 * 300) = 0 ∧
    (0 : ℕ) ≠ 1 ∧ (119 : ℕ) ≠ 287 := by decide

/-- C5: the `hour_of_day` value lies in [0,23] and is the timestamp's
time-of-day in whole hours (so it increments every 12 rows at a 5-minute
cadence); `day_of_week` lies in [0,6] with Monday mapped to 0 (1970-01-05,
i.e. epoch day 4, was a Monday); and both are broadcast unchanged to every
sensor of the (time, sensor, 1) tensor. -/
theorem metrla_C5_hour_and_day_of_week (ts r t s n_nodes : ℕ)
    (index : List ℕ) (ht : t < index.length) (hs : s < n_nodes) :
    hourOfDayVal ts ≤ 23 ∧
    hourOfDayVal ts = ts % 86400 / 3600 ∧
    hourOfDayVal (300 * r) = r / 12 % 24 ∧
    dayOfWeekVal ts ≤ 6 ∧
    dayOfWeekVal (4 * 86400) = 0 ∧
    ((tile3 n_nodes (index.map (fun u => (hourOfDayVal u : ℚ)))).getD t
        []).getD s [] = [(hourOfDayVal (index.getD t 0) : ℚ)] ∧
    ((tile3 n_nodes (index.map (fun u => (dayOfWeekVal u : ℚ)))).getD t
        []).getD s [] = [(dayOfWeekVal (index.getD t 0) : ℚ)] := by
  refine ⟨?_, ?_, ?_, ?_, by decide, ?_, ?_⟩
  · rw [hourOfDayVal, secondsOfDay]; omega
  · rw [hourOfDayVal, secondsOfDay]; omega
  · rw [hourOfDayVal, secondsOfDay]; omega
  · rw [dayOfWeekVal]; omega
  · rw [tile3_getD _ _ _ (by rw [List.length_map]; exact ht),
      getD_map_lt _ _ _ 0 _ ht]
    rw [List.getD_eq_getElem?_getD, List.getElem?_replicate]
    simp [hs]
  · rw [tile3_getD _ _ _ (by rw [List.length_map]; exact ht),
      getD_map_lt _ _ _ 0 _ ht]
    rw [List.getD_eq_getElem?_getD, List.getElem?_replicate]
    simp [hs]

/-- Witness for C5 at concrete inputs. -/
theorem metrla_C5_hour_and_day_of_week_witness :
    hourOfDayVal 18017 ≤ 23 ∧
    hourOfDayVal 18017 = 18017 % 86400 / 3600 ∧
    hourOfDayVal (300 * 25) = 25 / 12 % 24 ∧
    dayOfWeekVal 18017 ≤ 6 ∧
    dayOfWeekVal (4 * 86400) = 0 ∧
    ((tile3 2 (([0, 300, 600] : List ℕ).map
        (fun u => (hourOfDayVal u : ℚ)))).getD 1 []).getD 0 [] =
      [(hourOfDayVal (([0, 300, 600] : List ℕ).getD 1 0) : ℚ)] ∧
    ((tile3 2 (([0, 300, 600] : List ℕ).map
        (fun u => (dayOfWeekVal u : ℚ)))).getD 1 []).getD 0 [] =
      [(dayOfWeekVal (([0, 300, 600] : List ℕ).getD 1 0) : ℚ)] :=
  metrla_C5_hour_and_day_of_week 18017 25 1 0 2 [0, 300, 600]
    (by decide) (by decide)

/-- The key list of the `data` dict: the recognized keys, in their fixed
insertion order, that occur in the requested feature list. -/
theorem buildData_keys (features : List String) (index : List ℕ)
    (readings : List (List ℚ)) (n_nodes : ℕ) :
    (buildData features index readings n_nodes).map Prod.fst =
      recognizedKeys.filter (fun key => features.contains key) := by
  rw [buildData, recognizedKeys]
  by_cases h1 : "features" ∈ features <;>
    by_cases h2 : "hour_of_day" ∈ features <;>
      by_cases h3 : "day_of_week" ∈ features <;>
        by_cases h4 : "interval_of_day" ∈ features <;>
          simp [List.filter, h1, h2, h3, h4]

/-- C6 (amended): the load operation never fails on account of the feature
list: an empty request is replaced by the default
`["features", "interval_of_day", "day_of_week"]`, unrecognized keys are
silently ignored, and the key set of both returned maps is the set of
recognized keys occurring in the (defaulted) request — not necessarily the
requested set, and with no ConfigurationError anywhere. -/
theorem metrla_C6_key_set (m : MetrLaIo) (feats : List String)
    (index : List ℕ) (readings : List (List ℚ)) :
    ((getMetrLaData m feats index readings).1.map Prod.fst =
      recognizedKeys.filter (fun key =>
        (if feats.isEmpty then defaultFeatures else feats).contains key)) ∧
    ((getMetrLaData m feats index readings).2.map Prod.fst =
      recognizedKeys.filter (fun key =>
        (if feats.isEmpty then defaultFeatures else feats).contains key)) ∧
    getMetrLaData m [] index readings =
      getMetrLaData m defaultFeatures index readings := by
  have keymap : ∀ (nn : ℕ) (offs : List ℤ) (l : List (String × Tensor3)),
      (l.map (fun kv => (kv.1, stackWindows m nn offs kv.2))).map Prod.fst =
        l.map Prod.fst := by
    intro nn offs l
    induction l with
    | nil => rfl
    | cons a l ih => simp only [List.map_cons, ih]
  refine ⟨?_, ?_, rfl⟩ <;>
  · rw [getMetrLaData]
    simp only []
    rw [keymap]
    exact buildData_keys _ index readings _

/-- C6 counterexample: requesting only the unrecognized key "bogus" neither
fails nor yields a map keyed by the request: the result is a pair of empty
maps. -/
theorem metrla_C6_counterexample :
    getMetrLaData ⟨4, 2, 1, (1 : ℚ)/10⟩ ["bogus"] [0, 300, 600, 900]
      [[1, 2], [3, 4], [5, 6], [7, 8]] = ([], []) ∧
    (["bogus"] : List String) ≠ [] :=
  ⟨rfl, by decide⟩

/-! ### Adjacency matrix component -/

/-- The `sensor_id_to_idx` dict built by
`for idx, sensor_id in enumerate(sensor_ids)`: for a duplicated id the later
(larger) index wins, exactly as repeated dict writes do. -/
def sensorIdToIdx (ids : List ℤ) (sid : ℤ) : Option ℕ :=
  ((List.range ids.length).filter (fun i => ids.getD i 0 == sid)).getLast?

/-- `np.full((n, n), np.inf)`: `none` models `np.inf`. -/
def emptyMatrix (n : ℕ) : List (List (Option ℚ)) :=
  List.replicate n (List.replicate n none)

/-- `adjacency_matrix[i, j] = value`. -/
def setEntry (mat : List (List (Option ℚ))) (i j : ℕ) (v : ℚ) :
    List (List (Option ℚ)) :=
  mat.set i ((mat.getD i []).set j (some v))

/-- One iteration of `for _, row in distances_df.iterrows()`: rows either of
whose endpoints is missing from the id map are skipped. -/
def insertRow (ids : List ℤ) (mat : List (List (Option ℚ)))
    (row : ℤ × ℤ × ℚ) : List (List (Option ℚ)) :=
  match sensorIdToIdx ids row.1, sensorIdToIdx ids row.2.1 with
  | some i, some j => setEntry mat i j row.2.2
  | _, _ => mat

/-- The distance matrix after the whole row loop. -/
def distanceMatrix (ids : List ℤ) (rows : List (ℤ × ℤ × ℚ)) :
    List (List (Option ℚ)) :=
  rows.foldl (insertRow ids) (emptyMatrix ids.length)

/-- `adjacency_matrix[~np.isinf(adjacency_matrix)].flatten()`: the finite
entries, row-major. -/
def finiteEntries (mat : List (List (Option ℚ))) : List ℚ :=
  (mat.map (fun r => r.filterMap id)).flatten

/-- `generate_adjacency_matrix`, with `np.exp` and `ndarray.std` passed in
as `fexp` and `stdFn` (both are irrational-valued float functions, so they
cannot be written as exact rational code; theorems state the needed facts
about them as hypotheses).  The `none` branch of the kernel step mirrors
IEEE `exp(-(inf)^2) = exp(-inf) = 0` for the `np.inf` placeholder entries.
The model is faithful when at least one finite distance was recorded and its
standard deviation is nonzero; otherwise the float code divides by `nan`
(std of an empty selection) or `0` instead. -/
def kernelWeight (fexp : ℚ → ℚ) (std : ℚ) : Option ℚ → ℚ
  | some d => fexp (-((d / std + eps) ^ 2))
  | none => 0

/-- `np.exp(-np.square(adjacency_matrix / std + 1e-5))` followed by
`adjacency_matrix[adjacency_matrix < normalized_k] = 0`. -/
def generateAdjacencyMatrix (fexp : ℚ → ℚ) (stdFn : List ℚ → ℚ)
    (m : MetrLaIo) (ids : List ℤ) (rows : List (ℤ × ℤ × ℚ)) :
    List (List ℚ) :=
  let mat := distanceMatrix ids rows
  let std := stdFn (finiteEntries mat)
  let kernel := mat.map (fun r => r.map (kernelWeight fexp std))
  kernel.map (fun r => r.map (fun w => if w < m.normalized_k then 0 else w))

/-- True when a distance row writes matrix cell (i, j). -/
def rowWrites (ids : List ℤ) (i j : ℕ) (row : ℤ × ℤ × ℚ) : Bool :=
  (sensorIdToIdx ids row.1 == some i) && (sensorIdToIdx ids row.2.1 == some j)

/-- The distance stored at cell (i, j): the value carried by the last row of
the table that writes that cell. -/
def recordedDist (ids : List ℤ) (rows : List (ℤ × ℤ × ℚ)) (i j : ℕ) :
    Option ℚ :=
  ((rows.filter (rowWrites ids i j)).getLast?).map (fun row => row.2.2)

/-- Cell (i, j) of a matrix. -/
def entryAt (mat : List (List (Option ℚ))) (i j : ℕ) : Option ℚ :=
  (mat.getD i []).getD j none

/-- An n×n matrix shape. -/
def shapeOK (n : ℕ) (mat : List (List (Option ℚ))) : Prop :=
  mat.length = n ∧ ∀ r ∈ mat, r.length = n

end MetrLa

namespace MetrLa

theorem getLast?_cons_or {α : Type _} (a : α) (l : List α) :
    (a :: l).getLast? = l.getLast?.or (some a) := by
  induction l generalizing a with
  | nil => rfl
  | cons b l ih =>
    rw [List.getLast?_cons_cons, ih b, Option.or_assoc]
    rfl

theorem sensorIdToIdx_lt (ids : List ℤ) (sid : ℤ) (a : ℕ)
    (h : sensorIdToIdx ids sid = some a) : a < ids.length := by
  rw [sensorIdToIdx] at h
  have hmem := List.mem_of_getLast?_eq_some h
  rw [List.mem_filter, List.mem_range] at hmem
  exact hmem.1

theorem sensorIdToIdx_eq_none_iff (ids : List ℤ) (sid : ℤ) :
    sensorIdToIdx ids sid = none ↔ sid ∉ ids := by
  rw [sensorIdToIdx, List.getLast?_eq_none_iff, List.filter_eq_nil_iff]
  constructor
  · intro h hmem
    obtain ⟨i, hlt, hget⟩ := List.getElem_of_mem hmem
    exact h i (List.mem_range.mpr hlt)
      (by rw [List.getD_eq_getElem ids 0 hlt, hget]; exact beq_self_eq_true sid)
  · intro h i hi
    rw [List.mem_range] at hi
    intro hbeq
    exact h (by rw [← show ids.getD i 0 = sid from eq_of_beq hbeq,
      List.getD_eq_getElem ids 0 hi]; exact List.getElem_mem hi)

theorem emptyMatrix_shape (n : ℕ) : shapeOK n (emptyMatrix n) := by
  refine ⟨List.length_replicate .., fun r hr => ?_⟩
  rw [List.eq_of_mem_replicate hr]
  exact List.length_replicate ..

theorem setEntry_shape (n : ℕ) (mat : List (List (Option ℚ))) (i j : ℕ)
    (v : ℚ) (hm : shapeOK n mat) (hi : i < n) :
    shapeOK n (setEntry mat i j v) := by
  obtain ⟨hlen, hrows⟩ := hm
  refine ⟨by rw [setEntry, List.length_set]; exact hlen, fun r hr => ?_⟩
  rcases List.mem_or_eq_of_mem_set hr with hold | hnew
  · exact hrows r hold
  · rw [hnew, List.length_set, List.getD_eq_getElem mat [] (hlen ▸ hi)]
    exact hrows _ (List.getElem_mem _)

theorem insertRow_shape (ids : List ℤ) (mat : List (List (Option ℚ)))
    (row : ℤ × ℤ × ℚ) (hm : shapeOK ids.length mat) :
    shapeOK ids.length (insertRow ids mat row) := by
  rw [insertRow]
  cases h1 : sensorIdToIdx ids row.1 with
  | none => exact hm
  | some a =>
    cases h2 : sensorIdToIdx ids row.2.1 with
    | none => exact hm
    | some b => exact setEntry_shape _ _ _ _ _ hm (sensorIdToIdx_lt _ _ _ h1)

theorem foldl_insertRow_shape (ids : List ℤ) (rows : List (ℤ × ℤ × ℚ))
    (mat : List (List (Option ℚ))) (hm : shapeOK ids.length mat) :
    shapeOK ids.length (rows.foldl (insertRow ids) mat) := by
  induction rows generalizing mat with
  | nil => exact hm
  | cons r rs ih => exact ih _ (insertRow_shape ids mat r hm)

theorem distanceMatrix_shape (ids : List ℤ) (rows : List (ℤ × ℤ × ℚ)) :
    shapeOK ids.length (distanceMatrix ids rows) :=
  foldl_insertRow_shape ids rows _ (emptyMatrix_shape _)

theorem entryAt_setEntry (n : ℕ) (mat : List (List (Option ℚ)))
    (hm : shapeOK n mat) (a b i j : ℕ) (ha : a < n) (hb : b < n) (v : ℚ) :
    entryAt (setEntry mat a b v) i j =
      if a = i ∧ b = j then some v else entryAt mat i j := by
  obtain ⟨hlen, hrows⟩ := hm
  have halen : a < mat.length := hlen ▸ ha
  have hrl : (mat.getD a []).length = n := by
    rw [List.getD_eq_getElem mat [] halen]
    exact hrows _ (List.getElem_mem _)
  simp only [entryAt, setEntry, List.getD_eq_getElem?_getD, List.getElem?_set]
  by_cases hai : a = i <;> by_cases hbj : b = j
  · subst hai; subst hbj
    have hb2 : b < (mat[a]?.getD []).length := by
      rw [← List.getD_eq_getElem?_getD]; exact hrl ▸ hb
    have hb3 : b < mat[a].length := by
      rw [List.getElem?_eq_getElem halen] at hb2
      simpa using hb2
    simp [List.getElem?_set, halen, hb2, hb3]
  · subst hai
    simp [List.getElem?_set, halen, hbj]
  · subst hbj
    simp [hai]
  · simp [hai, hbj]

theorem entryAt_insertRow (ids : List ℤ) (mat : List (List (Option ℚ)))
    (hm : shapeOK ids.length mat) (row : ℤ × ℤ × ℚ) (i j : ℕ) :
    entryAt (insertRow ids mat row) i j =
      if rowWrites ids i j row then some row.2.2 else entryAt mat i j := by
  rw [insertRow, rowWrites]
  cases h1 : sensorIdToIdx ids row.1 with
  | none => simp [h1]
  | some a =>
    cases h2 : sensorIdToIdx ids row.2.1 with
    | none => simp [h2]
    | some b =>
      rw [entryAt_setEntry ids.length mat hm a b i j
        (sensorIdToIdx_lt _ _ _ h1) (sensorIdToIdx_lt _ _ _ h2)]
      have hcond : (((some a == some i) && (some b == some j)) = true) ↔
          (a = i ∧ b = j) := by simp
      simp only [h1, h2, hcond]

theorem entryAt_foldl (ids : List ℤ) (rows : List (ℤ × ℤ × ℚ))
    (mat : List (List (Option ℚ))) (hm : shapeOK ids.length mat) (i j : ℕ) :
    entryAt (rows.foldl (insertRow ids) mat) i j =
      (recordedDist ids rows i j).or (entryAt mat i j) := by
  induction rows generalizing mat with
  | nil =>
    rw [List.foldl_nil, recordedDist]
    simp
  | cons r rs ih =>
    rw [List.foldl_cons, ih _ (insertRow_shape ids mat r hm),
      entryAt_insertRow ids mat hm r i j]
    simp only [recordedDist, List.filter_cons]
    cases hw : rowWrites ids i j r
    · simp [hw]
    · cases hlast : (List.filter (rowWrites ids i j) rs).getLast? <;>
        simp [hw, getLast?_cons_or, hlast]

theorem entryAt_emptyMatrix (n i j : ℕ) :
    entryAt (emptyMatrix n) i j = none := by
  by_cases hi : i < n <;> by_cases hj : j < n <;>
    simp [entryAt, emptyMatrix, List.getD_eq_getElem?_getD,
      List.getElem?_replicate, hi, hj]

/-- The filled distance matrix holds, at (i, j), exactly the value of the
last distance row writing that cell (`none` when no row does). -/
theorem distanceMatrix_entry (ids : List ℤ) (rows : List (ℤ × ℤ × ℚ))
    (i j : ℕ) :
    entryAt (distanceMatrix ids rows) i j = recordedDist ids rows i j := by
  rw [distanceMatrix,
    entryAt_foldl ids rows _ (emptyMatrix_shape _) i j,
    entryAt_emptyMatrix, Option.or_none]

/-- Closed form of one cell of the returned adjacency matrix. -/
theorem generateAdjacencyMatrix_entry (fexp : ℚ → ℚ) (stdFn : List ℚ → ℚ)
    (m : MetrLaIo) (ids : List ℤ) (rows : List (ℤ × ℤ × ℚ)) (i j : ℕ)
    (hi : i < ids.length) (hj : j < ids.length) :
    ((generateAdjacencyMatrix fexp stdFn m ids rows).getD i []).getD j 0 =
      if kernelWeight fexp (stdFn (finiteEntries (distanceMatrix ids rows)))
          (recordedDist ids rows i j) < m.normalized_k then 0
      else kernelWeight fexp (stdFn (finiteEntries (distanceMatrix ids rows)))
          (recordedDist ids rows i j) := by
  obtain ⟨hlen, hrows⟩ := distanceMatrix_shape ids rows
  have hrowlen : ((distanceMatrix ids rows).getD i []).length = ids.length := by
    rw [List.getD_eq_getElem (distanceMatrix ids rows) [] (hlen ▸ hi)]
    exact hrows _ (List.getElem_mem _)
  simp only [generateAdjacencyMatrix]
  rw [getD_map_lt _ _ i [] _
      (by rw [List.length_map, hlen]; exact hi),
    getD_map_lt _ _ i [] _ (hlen ▸ hi),
    getD_map_lt _ _ j (0 : ℚ) _
      (by rw [List.length_map, hrowlen]; exact hj),
    getD_map_lt _ _ j (none : Option ℚ) _ (hrowlen ▸ hj)]
  rw [show ((distanceMatrix ids rows).getD i []).getD j none =
      entryAt (distanceMatrix ids rows) i j from rfl,
    distanceMatrix_entry]

/-- C7: every cell of the returned adjacency matrix lies in [0, 1]; a cell
with recorded distance d equals the kernel value
`exp(-((d/std + 1e-5))^2)` when that value is at least `normalized_k` and
exactly 0 otherwise; and a cell with no recorded distance (the untouched
diagonal included) is exactly 0 whenever `normalized_k > 0`.  `fexp`/`stdFn`
stand for numpy's float `exp`/`std`; the hypotheses state that `exp` of a
nonpositive argument lies in [0, 1], and restrict to the cases (some finite
distance recorded, nonzero std) where the rational model is faithful to the
float code. -/
theorem metrla_C7_kernel_threshold (fexp : ℚ → ℚ) (stdFn : List ℚ → ℚ)
    (m : MetrLaIo) (ids : List ℤ) (rows : List (ℤ × ℤ × ℚ)) (i j : ℕ)
    (hi : i < ids.length) (hj : j < ids.length)
    (hexp : ∀ q : ℚ, q ≤ 0 → 0 ≤ fexp q ∧ fexp q ≤ 1)
    (hk : 0 < m.normalized_k)
    (hne : finiteEntries (distanceMatrix ids rows) ≠ [])
    (hstd : 0 < stdFn (finiteEntries (distanceMatrix ids rows))) :
    (0 ≤ ((generateAdjacencyMatrix fexp stdFn m ids rows).getD i []).getD j 0 ∧
      ((generateAdjacencyMatrix fexp stdFn m ids rows).getD i []).getD j 0 ≤ 1) ∧
    (∀ d, recordedDist ids rows i j = some d →
      ((generateAdjacencyMatrix fexp stdFn m ids rows).getD i []).getD j 0 =
        if fexp (-((d / stdFn (finiteEntries (distanceMatrix ids rows)) + eps) ^ 2))
            < m.normalized_k then 0
        else fexp (-((d / stdFn (finiteEntries (distanceMatrix ids rows)) + eps) ^ 2))) ∧
    (recordedDist ids rows i j = none →
      ((generateAdjacencyMatrix fexp stdFn m ids rows).getD i []).getD j 0 = 0) := by
  rw [generateAdjacencyMatrix_entry fexp stdFn m ids rows i j hi hj]
  refine ⟨?_, ?_, ?_⟩
  · by_cases hw : kernelWeight fexp
        (stdFn (finiteEntries (distanceMatrix ids rows)))
        (recordedDist ids rows i j) < m.normalized_k
    · rw [if_pos hw]
      exact ⟨le_refl 0, by norm_num⟩
    · rw [if_neg hw]
      cases hrec : recordedDist ids rows i j with
      | none => rw [kernelWeight]; exact ⟨le_refl 0, by norm_num⟩
      | some d =>
        rw [kernelWeight]
        exact hexp _ (neg_nonpos.mpr (sq_nonneg _))
  · intro d hd
    rw [hd, kernelWeight]
  · intro hd
    rw [hd, kernelWeight, if_pos hk]

/-- Witness for C7 on one sensor id and one self-distance row. -/
theorem metrla_C7_kernel_threshold_witness :
    (0 ≤ ((generateAdjacencyMatrix (fun _ => (1 : ℚ)/2) (fun _ => 1)
        ⟨4, 2, 1, (1 : ℚ)/10⟩ [10] [(10, 10, 5)]).getD 0 []).getD 0 0 ∧
      ((generateAdjacencyMatrix (fun _ => (1 : ℚ)/2) (fun _ => 1)
        ⟨4, 2, 1, (1 : ℚ)/10⟩ [10] [(10, 10, 5)]).getD 0 []).getD 0 0 ≤ 1) ∧
    (∀ d, recordedDist [10] [(10, 10, 5)] 0 0 = some d →
      ((generateAdjacencyMatrix (fun _ => (1 : ℚ)/2) (fun _ => 1)
        ⟨4, 2, 1, (1 : ℚ)/10⟩ [10] [(10, 10, 5)]).getD 0 []).getD 0 0 =
        if (fun _ => (1 : ℚ)/2) (-((d / (fun _ => (1 : ℚ)) (finiteEntries
            (distanceMatrix [10] [(10, 10, 5)])) + eps) ^ 2))
            < (MetrLaIo.mk 4 2 1 ((1 : ℚ)/10)).normalized_k then 0
        else (fun _ => (1 : ℚ)/2) (-((d / (fun _ => (1 : ℚ)) (finiteEntries
            (distanceMatrix [10] [(10, 10, 5)])) + eps) ^ 2))) ∧
    (recordedDist [10] [(10, 10, 5)] 0 0 = none →
      ((generateAdjacencyMatrix (fun _ => (1 : ℚ)/2) (fun _ => 1)
        ⟨4, 2, 1, (1 : ℚ)/10⟩ [10] [(10, 10, 5)]).getD 0 []).getD 0 0 = 0) :=
  metrla_C7_kernel_threshold (fun _ => (1 : ℚ)/2) (fun _ => 1)
    ⟨4, 2, 1, (1 : ℚ)/10⟩ [10] [(10, 10, 5)] 0 0 (by decide) (by decide)
    (fun q hq => ⟨by norm_num, by norm_num⟩) (by norm_num) (by decide)
    (by norm_num)

/-- C8: a distance row either of whose sensor ids is absent from the id
list is skipped — deleting it leaves the filled matrix unchanged — and the
cell of an ordered pair holds the value of the last table row writing it
(no aggregation across duplicates). -/
theorem metrla_C8_skip_and_last_write (ids : List ℤ)
    (rows1 rows2 : List (ℤ × ℤ × ℚ)) (bad : ℤ × ℤ × ℚ)
    (hbad : bad.1 ∉ ids ∨ bad.2.1 ∉ ids)
    (rows : List (ℤ × ℤ × ℚ)) (i j : ℕ) :
    distanceMatrix ids (rows1 ++ bad :: rows2) =
      distanceMatrix ids (rows1 ++ rows2) ∧
    entryAt (distanceMatrix ids rows) i j = recordedDist ids rows i j := by
  constructor
  · have hskip : ∀ mat, insertRow ids mat bad = mat := by
      intro mat
      rw [insertRow]
      cases h1 : sensorIdToIdx ids bad.1 with
      | none => rfl
      | some a =>
        cases h2 : sensorIdToIdx ids bad.2.1 with
        | none => rfl
        | some b =>
          exfalso
          rcases hbad with h | h
          · have hn := (sensorIdToIdx_eq_none_iff ids bad.1).mpr h
            rw [hn] at h1
            cases h1
          · have hn := (sensorIdToIdx_eq_none_iff ids bad.2.1).mpr h
            rw [hn] at h2
            cases h2
    rw [distanceMatrix, distanceMatrix, List.foldl_append, List.foldl_append,
      List.foldl_cons, hskip]
  · exact distanceMatrix_entry ids rows i j

/-- Witness for C8: the unknown id 99 is skipped and the duplicate pair
(10, 20) keeps its last value. -/
theorem metrla_C8_skip_and_last_write_witness :
    distanceMatrix [10, 20] ([(10, 20, 3)] ++ (10, 99, 7) :: [(10, 20, 5)]) =
      distanceMatrix [10, 20] ([(10, 20, 3)] ++ [(10, 20, 5)]) ∧
    entryAt (distanceMatrix [10, 20] [(10, 20, 3), (10, 20, 5)]) 0 1 =
      recordedDist [10, 20] [(10, 20, 3), (10, 20, 5)] 0 1 :=
  metrla_C8_skip_and_last_write [10, 20] [(10, 20, 3)] [(10, 20, 5)]
    (10, 99, 7) (by decide) [(10, 20, 3), (10, 20, 5)] 0 1

/-! ### The sensor-id reader and the empty-list boundary case -/

/-- `input_file.read().split(",")` on the file contents, modelled over a
character list (string primitives do not reduce in evaluation): splitting
always yields at least one token, and `"".split(",") == [""]`. -/
def splitOnComma : List Char → List (List Char)
  | [] => [[]]
  | c :: cs =>
    if c = ',' then [] :: splitOnComma cs
    else
      match splitOnComma cs with
      | [] => [[c]]
      | tok :: toks => (c :: tok) :: toks

/-- Decimal digits of a token, for Python `int(...)`: at least one digit
required, so `int("")` fails. -/
def parseNat : List Char → Option ℕ
  | [] => none
  | cs =>
    if cs.all (fun c => c.isDigit) then
      some (cs.foldl (fun acc c => 10 * acc + (c.toNat - 48)) 0)
    else none

/-- Python `int(...)` on one token: optional sign, then digits.  (Leading or
trailing whitespace, which Python would strip, is not modelled; the id file
has none.) -/
def parseInt : List Char → Option ℤ
  | [] => none
  | c :: cs =>
    if c = '-' then (parseNat cs).map (fun n => -(n : ℤ))
    else if c = '+' then (parseNat cs).map (fun n => (n : ℤ))
    else (parseNat (c :: cs)).map (fun n => (n : ℤ))

/-- `list(map(int, sensor_ids.split(",")))`: the first failing token raises
`ValueError`, modelled as `Except.error`. -/
def parseAll : List (List Char) → Except String (List ℤ)
  | [] => Except.ok []
  | t :: ts =>
    match parseInt t, parseAll ts with
    | some v, Except.ok vs => Except.ok (v :: vs)
    | none, _ => Except.error "ValueError"
    | some _, Except.error e => Except.error e

/-- `read_sensor_ids`, as a function of the file contents. -/
def readSensorIds (contents : List Char) : Except String (List ℤ) :=
  parseAll (splitOnComma contents)

end MetrLa

namespace MetrLa

theorem splitOnComma_ne_nil (contents : List Char) :
    splitOnComma contents ≠ [] := by
  cases contents with
  | nil => exact fun h => List.noConfusion h
  | cons c cs =>
    rw [splitOnComma]
    by_cases hc : c = ','
    · rw [if_pos hc]; exact fun h => List.noConfusion h
    · rw [if_neg hc]
      cases splitOnComma cs <;> exact fun h => List.noConfusion h

theorem parseAll_ok_length (ts : List (List Char)) (l : List ℤ)
    (h : parseAll ts = Except.ok l) : l.length = ts.length := by
  induction ts generalizing l with
  | nil =>
    rw [parseAll] at h
    cases h
    rfl
  | cons t ts ih =>
    rw [parseAll] at h
    cases hp : parseInt t with
    | none => rw [hp] at h; cases h
    | some v =>
      rw [hp] at h
      cases hr : parseAll ts with
      | error e => rw [hr] at h; cases h
      | ok vs =>
        rw [hr] at h
        cases h
        rw [List.length_cons, List.length_cons, ih vs hr]

/-- C9 (amended): there is no ConfigurationError and no emptiness check: the
sensor-id reader can never return an empty id list (every successful parse
has one integer per comma-separated token, and there is at least one token;
in particular an empty file fails `int("")` with a ValueError), and the
matrix construction applied to an empty id list does not fail — it returns
the empty 0×0 matrix. -/
theorem metrla_C9_empty_ids (contents : List Char) (l : List ℤ)
    (h : readSensorIds contents = Except.ok l)
    (fexp : ℚ → ℚ) (stdFn : List ℚ → ℚ) (m : MetrLaIo)
    (rows : List (ℤ × ℤ × ℚ)) :
    l ≠ [] ∧ generateAdjacencyMatrix fexp stdFn m [] rows = [] := by
  constructor
  · intro hnil
    subst hnil
    rw [readSensorIds] at h
    have hlen := parseAll_ok_length _ _ h
    exact splitOnComma_ne_nil contents
      (List.length_eq_zero.mp hlen.symm)
  · have hshape := distanceMatrix_shape [] rows
    have hmat : distanceMatrix ([] : List ℤ) rows = [] :=
      List.length_eq_zero.mp hshape.1
    simp only [generateAdjacencyMatrix]
    rw [hmat]
    rfl

/-- Witness for C9 (amended) at the one-token file "10". -/
theorem metrla_C9_empty_ids_witness :
    ([10] : List ℤ) ≠ [] ∧
    generateAdjacencyMatrix (fun _ => (1 : ℚ)/2) (fun _ => 1)
      ⟨4, 2, 1, (1 : ℚ)/10⟩ [] [(10, 20, 5)] = [] :=
  metrla_C9_empty_ids [Char.ofNat 49, Char.ofNat 48] [10] rfl
    (fun _ => (1 : ℚ)/2) (fun _ => 1) ⟨4, 2, 1, (1 : ℚ)/10⟩ [(10, 20, 5)]

/-- C9 counterexample: an empty sensor-id list makes the construction return
the 0×0 matrix — it does not fail — and an empty id file fails as a parse
error (Python ValueError from `int("")`), not a ConfigurationError. -/
theorem metrla_C9_counterexample :
    generateAdjacencyMatrix (fun _ => (1 : ℚ)/2) (fun _ => 1)
      ⟨4, 2, 1, (1 : ℚ)/10⟩ [] [(10, 20, 5)] = [] ∧
    readSensorIds [] = Except.error "ValueError" :=
  ⟨rfl, rfl⟩

/-! ### Object state: the fields assigned in `__init__` and never again -/

/-- The mutable fields of a `MetrLaIo` object, all set to `None` by
`__init__`. -/
structure MetrLaIoState where
  x : Option (List (String × Tensor4))
  y : Option (List (String × Tensor4))
  adjacency_matrix : Option (List (List ℚ))

/-- The state right after `__init__`. -/
def initState : MetrLaIoState := ⟨none, none, none⟩

/-- The `data` property: `return self.x, self.y`. -/
def dataProp (s : MetrLaIoState) :
    Option (List (String × Tensor4)) × Option (List (String × Tensor4)) :=
  (s.x, s.y)

/-- `get_metrla_data` as a state transformer: the method only returns its
result; its body contains no assignment to `self`. -/
def getMetrLaDataS (m : MetrLaIo) (s : MetrLaIoState)
    (features : List String) (index : List ℕ) (readings : List (List ℚ)) :
    (List (String × Tensor4) × List (String × Tensor4)) × MetrLaIoState :=
  (getMetrLaData m features index readings, s)

/-- `generate_adjacency_matrix` as a state transformer: likewise no
assignment to `self`. -/
def generateAdjacencyMatrixS (fexp : ℚ → ℚ) (stdFn : List ℚ → ℚ)
    (m : MetrLaIo) (s : MetrLaIoState) (ids : List ℤ)
    (rows : List (ℤ × ℤ × ℚ)) : List (List ℚ) × MetrLaIoState :=
  (generateAdjacencyMatrix fexp stdFn m ids rows, s)

/-- One public method call on the object. -/
inductive MetrLaCall where
  | load (features : List String) (index : List ℕ)
      (readings : List (List ℚ)) : MetrLaCall
  | genAdj (fexp : ℚ → ℚ) (stdFn : List ℚ → ℚ) (ids : List ℤ)
      (rows : List (ℤ × ℤ × ℚ)) : MetrLaCall

/-- Run a sequence of method calls, threading the object state. -/
def runCalls (m : MetrLaIo) (s : MetrLaIoState) :
    List MetrLaCall → MetrLaIoState
  | [] => s
  | MetrLaCall.load fs idx rdg :: cs =>
      runCalls m (getMetrLaDataS m s fs idx rdg).2 cs
  | MetrLaCall.genAdj fexp stdFn ids rows :: cs =>
      runCalls m (generateAdjacencyMatrixS fexp stdFn m s ids rows).2 cs

/-- C10: after construction and any sequence of `get_metrla_data` /
`generate_adjacency_matrix` calls, the fields `x`, `y` and
`adjacency_matrix` are still `None`, so the `data` property returns
`(None, None)` at every point. -/
theorem metrla_C10_fields_never_assigned (m : MetrLaIo)
    (calls : List MetrLaCall) :
    (runCalls m initState calls).x = none ∧
    (runCalls m initState calls).y = none ∧
    (runCalls m initState calls).adjacency_matrix = none ∧
    dataProp (runCalls m initState calls) = (none, none) := by
  have hrun : ∀ (cs : List MetrLaCall) (s : MetrLaIoState),
      runCalls m s cs = s := by
    intro cs
    induction cs with
    | nil => intro s; rfl
    | cons c cs ih =>
      intro s
      cases c with
      | load fs idx rdg => exact ih s
      | genAdj fexp stdFn ids rows => exact ih s
  rw [hrun calls initState]
  exact ⟨rfl, rfl, rfl, rfl⟩

end MetrLa
